import Mathlib

/-!
Shallow embedding of `safe/common/numerics.py` (grid/point geometric-numeric
toolkit of the webandgis repository) and proofs about it.

Arrays are modelled as `List ℚ` (2D grids as `List (List ℚ)`); floating-point
values are modelled as exact rationals, except for `erf`, whose defining
formula uses the real exponential and is modelled over `ℝ`.  Python
exceptions are modelled with `Except`.
-/

namespace Numerics

/-- Errors raised by the numerics module.  `utilities.verify` is not part of
the sources; modelled from the spec: a failed `verify(cond, msg)` raises an
error carrying the optional message (the spec calls the geometry-check
failures `InvalidGeometryError` and the internal length-check failure
`InternalInvariantError`); an out-of-range index access raises `IndexError`. -/
inductive PyError where
  | invalidGeometry : Option String → PyError
  | internalInvariant : PyError
  | indexError : PyError
  deriving DecidableEq, Repr

/-- Embedding of `numpy.ones(n)`: a vector of `n` ones. -/
def ones (n : ℕ) : List ℚ := List.replicate n 1

/-- Embedding of `numpy.kron` on 1-D arrays:
`kron a b` has entry `a[i] * b[j]` at index `i * len b + j`. -/
def kron (a b : List ℚ) : List ℚ :=
  a.flatMap (fun ai => b.map (fun bj => ai * bj))

/-- Embedding of `axes_to_points(x, y)`: reverse `y` (`numpy.flipud`), build
`X = kron(ones(len y), x)` and `Y = kron(y, ones(len x))`, `verify` that the
lengths agree, and pair them up (`reshape` to columns plus `concatenate`
along axis 1 makes the N×2 array, i.e. a list of pairs). -/
def axes_to_points (x y : List ℚ) : Except PyError (List (ℚ × ℚ)) :=
  let yr := y.reverse
  let X := kron (ones yr.length) x
  let Y := kron yr (ones x.length)
  if Y.length = X.length then
    Except.ok (X.zip Y)
  else
    Except.error PyError.internalInvariant

/-- Embedding of `grid_to_points(A, x, y)`: `verify` that `x[0] < x[1]` and
`y[0] < y[1]` (each with its message), then return `axes_to_points x y`
paired with the row-major flattening `A.reshape(-1)`.  Accessing `x[1]` on an
axis of length below two raises `IndexError`, as in numpy. -/
def grid_to_points (A : List (List ℚ)) (x y : List ℚ) :
    Except PyError (List (ℚ × ℚ) × List ℚ) :=
  match x[0]?, x[1]? with
  | some x0, some x1 =>
    if x0 < x1 then
      match y[0]?, y[1]? with
      | some y0, some y1 =>
        if y0 < y1 then
          (axes_to_points x y).map (fun points => (points, A.flatten))
        else
          Except.error (PyError.invalidGeometry
            (some ("Latitudes must be increasing (south to north). I got "
              ++ toString y)))
      | _, _ => Except.error PyError.indexError
    else
      Except.error (PyError.invalidGeometry
        (some ("Longitudes must be increasing (west to east). I got "
          ++ toString x)))
  | _, _ => Except.error PyError.indexError

/-- Embedding of `numpy.linspace(start, stop, num)` over exact rationals:
`num` evenly spaced samples from `start` to `stop`, endpoints included
(`num = 1` gives `[start]`, `num = 0` gives `[]`). -/
def linspace (start stop : ℚ) (num : ℕ) : List ℚ :=
  if num ≤ 1 then
    List.replicate num start
  else
    (List.range num).map
      (fun (i : ℕ) => start + (i : ℚ) * ((stop - start) / ((num : ℚ) - 1)))

/-- Embedding of `geotransform_to_axes(G, nx, ny)`: extract the upper-left
corner and the resolutions from the 6-tuple `G`, `verify(dx > 0)` and
`verify(dy > 0)` (both without a message), and build the two pixel-center
axes with `linspace`. -/
def geotransform_to_axes (G : ℚ × ℚ × ℚ × ℚ × ℚ × ℚ) (nx ny : ℕ) :
    Except PyError (List ℚ × List ℚ) :=
  let lon_ul := G.1
  let lat_ul := G.2.2.2.1
  let dx := G.2.1
  let dy := - G.2.2.2.2.2
  if 0 < dx then
    if 0 < dy then
      let lon_ll := lon_ul
      let lat_ll := lat_ul - ny * dy
      let lon_ur := lon_ul + nx * dx
      let dx2 := dx / 2
      let dy2 := dy / 2
      Except.ok (linspace (lon_ll + dx2) (lon_ur - dx2) nx,
                 linspace (lat_ll + dy2) (lat_ul - dy2) ny)
    else
      Except.error (PyError.invalidGeometry none)
  else
    Except.error (PyError.invalidGeometry none)

end Numerics

namespace Numerics

/-! ### Helper lemmas about the embedded numpy primitives -/

theorem ones_length (n : ℕ) : (ones n).length = n := by
  simp [ones]

theorem ones_getElem? (n i : ℕ) (h : i < n) : (ones n)[i]? = some 1 := by
  simp [ones, List.getElem?_eq_getElem, h]

theorem kron_cons (a : ℚ) (as b : List ℚ) :
    kron (a :: as) b = b.map (fun bj => a * bj) ++ kron as b := by
  simp [kron]

theorem kron_length (a b : List ℚ) :
    (kron a b).length = a.length * b.length := by
  induction a with
  | nil => simp [kron]
  | cons ah tl ih =>
    rw [kron_cons]
    simp only [List.length_append, List.length_map, ih, List.length_cons]
    ring

theorem kron_getElem? (a b : List ℚ) (i j : ℕ) (ai bj : ℚ)
    (ha : a[i]? = some ai) (hb : b[j]? = some bj) :
    (kron a b)[i * b.length + j]? = some (ai * bj) := by
  induction a generalizing i with
  | nil => simp at ha
  | cons ah tl ih =>
    rw [kron_cons]
    cases i with
    | zero =>
      simp only [List.getElem?_cons_zero, Option.some.injEq] at ha
      subst ha
      have hj : j < b.length := by
        rcases List.getElem?_eq_some.mp hb with ⟨h, _⟩
        exact h
      rw [Nat.zero_mul, Nat.zero_add,
        List.getElem?_append, if_pos (by simpa using hj), List.getElem?_map, hb]
      rfl
    | succ i =>
      simp only [List.getElem?_cons_succ] at ha
      have hlen : (List.map (fun bj => ah * bj) b).length = b.length := by simp
      have hidx : (i + 1) * b.length + j = b.length + (i * b.length + j) := by ring
      rw [hidx, List.getElem?_append_right (by omega)]
      rw [hlen]
      have : b.length + (i * b.length + j) - b.length = i * b.length + j := by omega
      rw [this]
      exact ih i ha

theorem axes_to_points_eq_ok (x y : List ℚ) :
    axes_to_points x y =
      Except.ok ((kron (ones y.reverse.length) x).zip
                 (kron y.reverse (ones x.length))) := by
  have hlen : (kron y.reverse (ones x.length)).length =
      (kron (ones y.reverse.length) x).length := by
    rw [kron_length, kron_length, ones_length, ones_length]
  simp only [axes_to_points]
  rw [if_pos hlen]

theorem axes_to_points_point (x y : List ℚ) (row col : ℕ)
    (hr : row < y.length) (hc : col < x.length) (xc yr : ℚ)
    (hx : x[col]? = some xc) (hy : y.reverse[row]? = some yr) :
    ∃ ps, axes_to_points x y = Except.ok ps ∧
      ps.length = x.length * y.length ∧
      ps[row * x.length + col]? = some (xc, yr) := by
  refine ⟨_, axes_to_points_eq_ok x y, ?_, ?_⟩
  · rw [List.length_zip, kron_length, kron_length, ones_length, ones_length,
      List.length_reverse]
    simp [Nat.mul_comm]
  · have hX : (kron (ones y.reverse.length) x)[row * x.length + col]? =
        some (1 * xc) := by
      refine kron_getElem? _ _ row col 1 xc ?_ hx
      exact ones_getElem? _ _ (by simpa using hr)
    have hY : (kron y.reverse (ones x.length))[row * x.length + col]? =
        some (yr * 1) := by
      have := kron_getElem? y.reverse (ones x.length) row col yr 1 hy
        (ones_getElem? _ _ hc)
      rwa [ones_length] at this
    rw [List.getElem?_zip_eq_some]
    constructor
    · rw [hX]; norm_num
    · rw [hY]; norm_num

end Numerics

namespace Numerics

theorem flatten_length_uniform (A : List (List ℚ)) (nx : ℕ)
    (h : ∀ r ∈ A, r.length = nx) : A.flatten.length = A.length * nx := by
  induction A with
  | nil => simp
  | cons r tl ih =>
    simp only [List.flatten_cons, List.length_append, List.length_cons]
    rw [h r (by simp), ih (fun s hs => h s (by simp [hs]))]
    ring

theorem flatten_getD_uniform (A : List (List ℚ)) (nx : ℕ)
    (h : ∀ r ∈ A, r.length = nx) (i : ℕ) (hi : i < A.length * nx) :
    A.flatten.getD i 0 = (A.getD (i / nx) []).getD (i % nx) 0 := by
  induction A generalizing i with
  | nil => simp at hi
  | cons r tl ih =>
    have hr : r.length = nx := h r (by simp)
    have hnx : 0 < nx := by
      rcases Nat.eq_zero_or_pos nx with h0 | h0
      · subst h0; simp at hi
      · exact h0
    by_cases hcase : i < nx
    · rw [List.flatten_cons, List.getD_append _ _ _ i (by rw [hr]; exact hcase),
        Nat.div_eq_of_lt hcase, Nat.mod_eq_of_lt hcase]
      simp
    · push_neg at hcase
      obtain ⟨k, rfl⟩ : ∃ k, i = k + nx := ⟨i - nx, by omega⟩
      rw [List.flatten_cons, List.getD_append_right _ _ _ _ (by rw [hr]; omega),
        hr, Nat.add_sub_cancel, Nat.add_div_right k hnx, Nat.add_mod_right]
      have hk : k < tl.length * nx := by
        rw [List.length_cons] at hi
        have : (tl.length + 1) * nx = tl.length * nx + nx := by ring
        omega
      rw [ih (fun s hs => h s (by simp [hs])) k hk]
      simp

/-- C1: for every pair of axes, `axes_to_points x y` returns
`x.length * y.length` coordinate pairs and the point at index
`row * nx + col` is `(x[col], y_reversed[row])`: the x coordinate varies
fastest and the y values are taken from the reversed input y-axis. -/
theorem axes_to_points_index_order (x y : List ℚ) (row col : ℕ)
    (hr : row < y.length) (hc : col < x.length) :
    ∃ ps, axes_to_points x y = Except.ok ps ∧
      ps.length = x.length * y.length ∧
      ps[row * x.length + col]? = some (x.getD col 0, y.reverse.getD row 0) := by
  have hrr : row < y.reverse.length := by simpa using hr
  have hx : x[col]? = some (x.getD col 0) := by
    rw [List.getD_eq_getElem _ _ hc, List.getElem?_eq_getElem hc]
  have hy : y.reverse[row]? = some (y.reverse.getD row 0) := by
    rw [List.getD_eq_getElem _ _ hrr, List.getElem?_eq_getElem hrr]
  exact axes_to_points_point x y row col hr hc _ _ hx hy

/-- Witness for C1 at `x = [1,2,3]`, `y = [10,20]`, `row = 1`, `col = 2`. -/
theorem axes_to_points_index_order_witness :
    ∃ ps, axes_to_points [1,2,3] [10,20] = Except.ok ps ∧
      ps.length = ([1,2,3] : List ℚ).length * ([10,20] : List ℚ).length ∧
      ps[1 * ([1,2,3] : List ℚ).length + 2]? =
        some (([1,2,3] : List ℚ).getD 2 0, ([10,20] : List ℚ).reverse.getD 1 0) :=
  axes_to_points_index_order [1,2,3] [10,20] 1 2 (by norm_num) (by norm_num)

/-- C2: the docstring of `axes_to_points` promises
`[[1,10],[2,10],[3,10],[1,20],[2,20],[3,20]]` for `x = [1,2,3]`,
`y = [10,20]`, but the code reverses the y-axis first and actually returns
`[[1,20],[2,20],[3,20],[1,10],[2,10],[3,10]]`: the code contradicts its own
documentation. -/
theorem axes_to_points_fixture_eval :
    axes_to_points [1,2,3] [10,20] =
      Except.ok [(1,20),(2,20),(3,20),(1,10),(2,10),(3,10)] ∧
    axes_to_points [1,2,3] [10,20] ≠
      Except.ok [(1,10),(2,10),(3,10),(1,20),(2,20),(3,20)] := by
  have h : axes_to_points [1,2,3] [10,20] =
      Except.ok [(1,20),(2,20),(3,20),(1,10),(2,10),(3,10)] := by
    norm_num [axes_to_points, kron, ones, List.replicate]
  refine ⟨h, ?_⟩
  rw [h]
  intro hbad
  simp only [Except.ok.injEq, List.cons.injEq, Prod.mk.injEq] at hbad
  norm_num at hbad

end Numerics

namespace Numerics

/-- C3: on a grid of shape `(ny, nx)` with valid axes, `grid_to_points`
returns `(points, values)` where `points` is exactly the output of
`axes_to_points`, `values` is the row-major flattening of `A` with no axis
reversal (`values[i] = A[i / nx][i % nx]`), and both have length
`nx * ny`. -/
theorem grid_to_points_flattening (A : List (List ℚ)) (x y : List ℚ)
    (x0 x1 y0 y1 : ℚ)
    (hx0 : x[0]? = some x0) (hx1 : x[1]? = some x1) (hxlt : x0 < x1)
    (hy0 : y[0]? = some y0) (hy1 : y[1]? = some y1) (hylt : y0 < y1)
    (hA : A.length = y.length) (hrow : ∀ r ∈ A, r.length = x.length) :
    ∃ ps, axes_to_points x y = Except.ok ps ∧
      grid_to_points A x y = Except.ok (ps, A.flatten) ∧
      ps.length = x.length * y.length ∧
      A.flatten.length = x.length * y.length ∧
      ∀ i < x.length * y.length,
        A.flatten.getD i 0 = (A.getD (i / x.length) []).getD (i % x.length) 0 := by
  have hlenA : A.flatten.length = x.length * y.length := by
    rw [flatten_length_uniform A x.length hrow, hA]
    ring
  refine ⟨_, axes_to_points_eq_ok x y, ?_, ?_, hlenA, ?_⟩
  · simp only [grid_to_points, hx0, hx1, hy0, hy1]
    rw [if_pos hxlt, if_pos hylt, axes_to_points_eq_ok]
    rfl
  · rw [List.length_zip, kron_length, kron_length, ones_length, ones_length,
      List.length_reverse]
    simp [Nat.mul_comm]
  · intro i hi
    refine flatten_getD_uniform A x.length hrow i ?_
    have : A.length * x.length = x.length * y.length := by rw [hA]; ring
    omega

/-- Witness for C3 at `A = [[1,2,3],[4,5,6]]`, `x = [1,2,3]`, `y = [10,20]`. -/
theorem grid_to_points_flattening_witness :
    ∃ ps, axes_to_points [1,2,3] [10,20] = Except.ok ps ∧
      grid_to_points [[1,2,3],[4,5,6]] [1,2,3] [10,20] =
        Except.ok (ps, ([[1,2,3],[4,5,6]] : List (List ℚ)).flatten) ∧
      ps.length = ([1,2,3] : List ℚ).length * ([10,20] : List ℚ).length ∧
      ([[1,2,3],[4,5,6]] : List (List ℚ)).flatten.length =
        ([1,2,3] : List ℚ).length * ([10,20] : List ℚ).length ∧
      ∀ i < ([1,2,3] : List ℚ).length * ([10,20] : List ℚ).length,
        ([[1,2,3],[4,5,6]] : List (List ℚ)).flatten.getD i 0 =
          (([[1,2,3],[4,5,6]] : List (List ℚ)).getD
            (i / ([1,2,3] : List ℚ).length) []).getD
            (i % ([1,2,3] : List ℚ).length) 0 :=
  grid_to_points_flattening [[1,2,3],[4,5,6]] [1,2,3] [10,20] 1 2 10 20
    rfl rfl (by norm_num) rfl rfl (by norm_num) (by simp) (by
      intro r hr
      simp only [List.mem_cons, List.not_mem_nil, or_false] at hr
      rcases hr with rfl | rfl <;> simp)

/-- C4: `grid_to_points` fails with the longitude message (naming `x`) when
`x[0] >= x[1]`, fails with the latitude message (naming `y`) when
`x[0] < x[1]` but `y[0] >= y[1]`, and succeeds when both pairs are
increasing: only the first two elements of each axis are checked. -/
theorem grid_to_points_precondition (A : List (List ℚ)) (x y : List ℚ)
    (x0 x1 y0 y1 : ℚ)
    (hx0 : x[0]? = some x0) (hx1 : x[1]? = some x1)
    (hy0 : y[0]? = some y0) (hy1 : y[1]? = some y1) :
    (x1 ≤ x0 → grid_to_points A x y =
      Except.error (PyError.invalidGeometry
        (some ("Longitudes must be increasing (west to east). I got "
          ++ toString x)))) ∧
    (x0 < x1 → y1 ≤ y0 → grid_to_points A x y =
      Except.error (PyError.invalidGeometry
        (some ("Latitudes must be increasing (south to north). I got "
          ++ toString y)))) ∧
    (x0 < x1 → y0 < y1 → ∃ r, grid_to_points A x y = Except.ok r) := by
  refine ⟨?_, ?_, ?_⟩
  · intro h
    simp only [grid_to_points, hx0, hx1]
    rw [if_neg (not_lt.mpr h)]
  · intro hx h
    simp only [grid_to_points, hx0, hx1, hy0, hy1]
    rw [if_pos hx, if_neg (not_lt.mpr h)]
  · intro hx hy
    refine ⟨((kron (ones y.reverse.length) x).zip
      (kron y.reverse (ones x.length)), A.flatten), ?_⟩
    simp only [grid_to_points, hx0, hx1, hy0, hy1]
    rw [if_pos hx, if_pos hy, axes_to_points_eq_ok]
    rfl

/-- Witness for C4 at `x = [3,2,1]` (decreasing longitudes). -/
theorem grid_to_points_precondition_witness :
    grid_to_points [[0]] [3,2,1] [10,20] =
      Except.error (PyError.invalidGeometry
        (some ("Longitudes must be increasing (west to east). I got "
          ++ toString ([3,2,1] : List ℚ)))) :=
  (grid_to_points_precondition [[0]] [3,2,1] [10,20] 3 2 10 20
    rfl rfl rfl rfl).1 (by norm_num)

/-- C10: on a grid whose axes satisfy the data-model invariant (strictly
increasing, length at least one) but where one axis has length exactly one,
`grid_to_points` fails with `IndexError` from the `x[1]`/`y[1]` access in its
precondition checks, not with `InvalidGeometryError` and not with a
result. -/
theorem grid_to_points_short_axis (A : List (List ℚ)) (x y : List ℚ)
    (hx : List.Pairwise (· < ·) x) (hy : List.Pairwise (· < ·) y)
    (hx1 : 1 ≤ x.length) (hy1 : 1 ≤ y.length)
    (h1 : x.length = 1 ∨ y.length = 1) :
    grid_to_points A x y = Except.error PyError.indexError := by
  rcases h1 with h | h
  · match x, h with
    | [a], _ => simp [grid_to_points]
  · match y, h with
    | [b], _ =>
      match x, hx, hx1 with
      | [a], _, _ => simp [grid_to_points]
      | a :: a2 :: tl, hx, _ =>
        have hlt : a < a2 := (List.pairwise_cons.mp hx).1 a2 (by simp)
        simp [grid_to_points, hlt]

/-- Witness for C10 at `x = [7]` (single column), `y = [10,20]`. -/
theorem grid_to_points_short_axis_witness :
    grid_to_points [[5]] [7] [10,20] = Except.error PyError.indexError :=
  grid_to_points_short_axis [[5]] [7] [10,20] (by decide) (by decide)
    (by decide) (by decide) (Or.inl rfl)

end Numerics

namespace Numerics

theorem linspace_length (a b : ℚ) (num : ℕ) : (linspace a b num).length = num := by
  unfold linspace
  split
  · exact List.length_replicate num a
  · rw [List.length_map, List.length_range]

theorem linspace_getD (a d : ℚ) (num i : ℕ) (hi : i < num) :
    (linspace a (a + ((num : ℚ) - 1) * d) num).getD i 0 = a + i * d := by
  unfold linspace
  split
  · rename_i h
    have hnum : num = 1 := by omega
    subst hnum
    have hzero : i = 0 := by omega
    subst hzero
    simp
  · rename_i h
    push_neg at h
    have hlen : i < ((List.range num).map
        (fun (j : ℕ) => a + (j : ℚ) *
          ((a + ((num : ℚ) - 1) * d - a) / ((num : ℚ) - 1)))).length := by
      rw [List.length_map, List.length_range]
      exact hi
    rw [List.getD_eq_getElem _ _ hlen, List.getElem_map, List.getElem_range]
    have hne : ((num : ℚ) - 1) ≠ 0 := by
      have : (2 : ℚ) ≤ (num : ℚ) := by exact_mod_cast h
      linarith
    rw [add_sub_cancel_left, mul_div_cancel_left₀ d hne]

theorem linspace_pairwise (a d : ℚ) (num : ℕ) (hd : 0 < d) :
    List.Pairwise (· < ·) (linspace a (a + ((num : ℚ) - 1) * d) num) := by
  rw [List.pairwise_iff_getElem]
  intro i j hi hj hij
  have hni : i < num := by rwa [linspace_length] at hi
  have hnj : j < num := by rwa [linspace_length] at hj
  have e1 : (linspace a (a + ((num : ℚ) - 1) * d) num)[i] = a + i * d := by
    rw [← List.getD_eq_getElem _ 0 hi]
    exact linspace_getD a d num i hni
  have e2 : (linspace a (a + ((num : ℚ) - 1) * d) num)[j] = a + j * d := by
    rw [← List.getD_eq_getElem _ 0 hj]
    exact linspace_getD a d num j hnj
  rw [e1, e2]
  have hq : (i : ℚ) < (j : ℚ) := by exact_mod_cast hij
  have := mul_lt_mul_of_pos_right hq hd
  linarith

end Numerics

namespace Numerics

/-- C5: with positive derived resolutions, `geotransform_to_axes` returns the
two pixel-center axes: `nx` evenly spaced x-values starting at
`G[0] + G[1]/2` with step `G[1]`, and `ny` evenly spaced y-values starting at
`(G[3] - ny*(-G[5])) + (-G[5])/2` with step `-G[5]`; both axes are strictly
increasing, and the documented example at `G = (100,1,0,10,0,-1)`,
`nx = ny = 9` is reproduced exactly. -/
theorem geotransform_to_axes_spec (g0 g1 g2 g3 g4 g5 : ℚ) (nx ny : ℕ)
    (hdx : 0 < g1) (hdy : 0 < -g5) :
    ∃ xs ys,
      geotransform_to_axes (g0, g1, g2, g3, g4, g5) nx ny = Except.ok (xs, ys) ∧
      xs.length = nx ∧ ys.length = ny ∧
      (∀ i < nx, xs.getD i 0 = g0 + g1 / 2 + (i : ℚ) * g1) ∧
      (∀ i < ny, ys.getD i 0 =
        (g3 - (ny : ℚ) * (-g5)) + (-g5) / 2 + (i : ℚ) * (-g5)) ∧
      List.Pairwise (· < ·) xs ∧ List.Pairwise (· < ·) ys ∧
      geotransform_to_axes (100, 1, 0, 10, 0, -1) 9 9 =
        Except.ok
          ([100.5, 101.5, 102.5, 103.5, 104.5, 105.5, 106.5, 107.5, 108.5],
           [1.5, 2.5, 3.5, 4.5, 5.5, 6.5, 7.5, 8.5, 9.5]) := by
  have hxarg : g0 + (nx : ℚ) * g1 - g1 / 2 =
      (g0 + g1 / 2) + ((nx : ℚ) - 1) * g1 := by ring
  have hyarg : g3 - (-g5) / 2 =
      ((g3 - (ny : ℚ) * (-g5)) + (-g5) / 2) + ((ny : ℚ) - 1) * (-g5) := by ring
  refine ⟨linspace (g0 + g1 / 2) (g0 + (nx : ℚ) * g1 - g1 / 2) nx,
          linspace ((g3 - (ny : ℚ) * (-g5)) + (-g5) / 2) (g3 - (-g5) / 2) ny,
          ?_, linspace_length _ _ _, linspace_length _ _ _, ?_, ?_, ?_, ?_, ?_⟩
  · simp only [geotransform_to_axes]
    rw [if_pos hdx, if_pos hdy]
  · intro i hi
    rw [hxarg]
    exact linspace_getD _ _ _ _ hi
  · intro i hi
    rw [hyarg]
    exact linspace_getD _ _ _ _ hi
  · rw [hxarg]
    exact linspace_pairwise _ _ _ hdx
  · rw [hyarg]
    exact linspace_pairwise _ _ _ hdy
  · norm_num [geotransform_to_axes, linspace, List.range_succ]

/-- Witness for C5 at the documented geotransform `(100, 1, 0, 10, 0, -1)`
with `nx = ny = 9`. -/
theorem geotransform_to_axes_spec_witness :
    ∃ xs ys,
      geotransform_to_axes (100, 1, 0, 10, 0, -1) 9 9 = Except.ok (xs, ys) ∧
      xs.length = 9 ∧ ys.length = 9 ∧
      (∀ i < 9, xs.getD i 0 = 100 + 1 / 2 + (i : ℚ) * 1) ∧
      (∀ i < 9, ys.getD i 0 =
        (10 - ((9 : ℕ) : ℚ) * (-(-1))) + (-(-1)) / 2 + (i : ℚ) * (-(-1))) ∧
      List.Pairwise (· < ·) xs ∧ List.Pairwise (· < ·) ys ∧
      geotransform_to_axes (100, 1, 0, 10, 0, -1) 9 9 =
        Except.ok
          ([100.5, 101.5, 102.5, 103.5, 104.5, 105.5, 106.5, 107.5, 108.5],
           [1.5, 2.5, 3.5, 4.5, 5.5, 6.5, 7.5, 8.5, 9.5]) :=
  geotransform_to_axes_spec 100 1 0 10 0 (-1) 9 9 (by norm_num) (by norm_num)

/-- C6 counterexample: at `G = (100, 0, 0, 10, 0, -1)` (zero pixel width) the
code fails, but the error carries no message at all — `verify(dx > 0)` is
called without a message argument — contradicting the claim that the message
names the failing quantity and its value. -/
theorem geotransform_missing_message_cex :
    geotransform_to_axes (100, 0, 0, 10, 0, -1) 9 9 =
      Except.error (PyError.invalidGeometry none) ∧
    ¬ ∃ m : String, geotransform_to_axes (100, 0, 0, 10, 0, -1) 9 9 =
      Except.error (PyError.invalidGeometry (some m)) := by
  have h : geotransform_to_axes (100, 0, 0, 10, 0, -1) 9 9 =
      Except.error (PyError.invalidGeometry none) := by
    norm_num [geotransform_to_axes]
  refine ⟨h, ?_⟩
  rintro ⟨m, hm⟩
  rw [h] at hm
  simp at hm

/-- C6 amended: when the derived resolution `dx = G[1]` or `dy = -G[5]` is
not positive, `geotransform_to_axes` fails with the verification error, but
the error is raised without any message. -/
theorem geotransform_invalid_resolution_error (g0 g1 g2 g3 g4 g5 : ℚ)
    (nx ny : ℕ) (h : g1 ≤ 0 ∨ -g5 ≤ 0) :
    geotransform_to_axes (g0, g1, g2, g3, g4, g5) nx ny =
      Except.error (PyError.invalidGeometry none) := by
  by_cases hdx : 0 < g1
  · have hdy : -g5 ≤ 0 := by
      rcases h with h | h
      · exact absurd hdx (not_lt.mpr h)
      · exact h
    simp only [geotransform_to_axes]
    rw [if_pos hdx, if_neg (not_lt.mpr hdy)]
  · simp only [geotransform_to_axes]
    rw [if_neg hdx]

/-- Witness for the amended C6 at `G = (100, 1, 0, 10, 0, 1)` (positive
`G[5]`, hence non-positive derived `dy`). -/
theorem geotransform_invalid_resolution_error_witness :
    geotransform_to_axes (100, 1, 0, 10, 0, 1) 9 9 =
      Except.error (PyError.invalidGeometry none) :=
  geotransform_invalid_resolution_error 100 1 0 10 0 1 9 9 (Or.inr (by norm_num))

end Numerics

namespace Numerics

/-- A floating-point datum for the NaN-aware comparison `nan_allclose`:
either NaN or an ordinary (rational-modelled) number. -/
inductive FVal where
  | nan : FVal
  | num : ℚ → FVal
  deriving DecidableEq, Repr

/-- Embedding of `numpy.isnan` on one element. -/
def isnan : FVal → Bool
  | .nan => true
  | .num _ => false

/-- Elementwise closeness test of `numpy.allclose`: `|x - y| <= atol +
rtol * |y|`; any comparison involving NaN is false. -/
def close (p : FVal × FVal) (rtol atol : ℚ) : Bool :=
  match p with
  | (.num a, .num b) => decide (|a - b| ≤ atol + rtol * |b|)
  | _ => false

/-- Embedding of `numpy.allclose(x, y, rtol, atol)` on same-length vectors:
all element pairs must be close. -/
def allclose (x y : List FVal) (rtol atol : ℚ) : Bool :=
  (x.zip y).all fun p => close p rtol atol

/-- Embedding of `nan_allclose(x, y, rtol, atol)`: false when the NaN masks
differ anywhere, true when everything is NaN, otherwise `numpy.allclose` on
the inputs with the NaN positions filtered out (the filter is only applied
when some NaN is present, as in the code). -/
def nan_allclose (x y : List FVal) (rtol atol : ℚ) : Bool :=
  let xn := x.map isnan
  let yn := y.map isnan
  if (xn.zip yn).any fun p => p.1 != p.2 then
    false
  else if xn.all fun b => b then
    true
  else if xn.any fun b => b then
    allclose (x.filter fun v => !(isnan v)) (y.filter fun v => !(isnan v))
      rtol atol
  else
    allclose x y rtol atol

theorem mask_any_eq_false_iff (x y : List FVal) (h : x.length = y.length) :
    ((((x.map isnan).zip (y.map isnan)).any fun p => p.1 != p.2) = false) ↔
      x.map isnan = y.map isnan := by
  induction x generalizing y with
  | nil =>
    cases y with
    | nil => simp
    | cons b tly => simp at h
  | cons a tlx ih =>
    cases y with
    | nil => simp at h
    | cons b tly =>
      have h2 : tlx.length = tly.length := by simpa using h
      simp only [List.map_cons, List.zip_cons_cons, List.any_cons,
        Bool.or_eq_false_iff, bne_eq_false_iff_eq, List.cons.injEq]
      rw [ih tly h2]

end Numerics



namespace Numerics

theorem allclose_cons (v w : FVal) (xs ys : List FVal) (rtol atol : ℚ) :
    allclose (v :: xs) (w :: ys) rtol atol =
      (close (v, w) rtol atol && allclose xs ys rtol atol) := by
  simp [allclose]

theorem allclose_filter_iff (rtol atol : ℚ) (x y : List FVal)
    (hm : x.map isnan = y.map isnan) :
    ((allclose (x.filter fun v => !(isnan v)) (y.filter fun v => !(isnan v))
        rtol atol) = true) ↔
      (∀ (i : ℕ) (a b : ℚ), x[i]? = some (FVal.num a) → y[i]? = some (FVal.num b) →
        |a - b| ≤ atol + rtol * |b|) := by
  induction x generalizing y with
  | nil =>
    cases y with
    | nil =>
      simp only [List.filter_nil]
      constructor
      · intro _ i a b hx _
        simp at hx
      · intro _
        simp [allclose]
    | cons b tly => simp at hm
  | cons a tlx ih =>
    cases y with
    | nil => simp at hm
    | cons b tly =>
      simp only [List.map_cons, List.cons.injEq] at hm
      obtain ⟨hab, htl⟩ := hm
      have IH := ih tly htl
      cases a with
      | nan =>
        cases b with
        | num q => simp [isnan] at hab
        | nan =>
          have hfx : ((FVal.nan :: tlx).filter fun v => !(isnan v)) =
              tlx.filter fun v => !(isnan v) := by
            simp [List.filter_cons, isnan]
          have hfy : ((FVal.nan :: tly).filter fun v => !(isnan v)) =
              tly.filter fun v => !(isnan v) := by
            simp [List.filter_cons, isnan]
          rw [hfx, hfy, IH]
          constructor
          · intro h i a2 b2 hx hy
            cases i with
            | zero => simp at hx
            | succ i =>
              exact h i a2 b2 (by simpa using hx) (by simpa using hy)
          · intro h i a2 b2 hx hy
            exact h (i + 1) a2 b2 (by simpa using hx) (by simpa using hy)
      | num p =>
        cases b with
        | nan => simp [isnan] at hab
        | num q =>
          have hfx : ((FVal.num p :: tlx).filter fun v => !(isnan v)) =
              FVal.num p :: tlx.filter fun v => !(isnan v) := by
            simp [List.filter_cons, isnan]
          have hfy : ((FVal.num q :: tly).filter fun v => !(isnan v)) =
              FVal.num q :: tly.filter fun v => !(isnan v) := by
            simp [List.filter_cons, isnan]
          rw [hfx, hfy, allclose_cons, Bool.and_eq_true, IH]
          constructor
          · intro h i a2 b2 hx hy
            cases i with
            | zero =>
              simp only [List.getElem?_cons_zero, Option.some.injEq,
                FVal.num.injEq] at hx hy
              subst hx
              subst hy
              have := h.1
              simp only [close, decide_eq_true_eq] at this
              exact this
            | succ i =>
              exact h.2 i a2 b2 (by simpa using hx) (by simpa using hy)
          · intro h
            constructor
            · have := h 0 p q (by simp) (by simp)
              simp only [close, decide_eq_true_eq]
              exact this
            · intro i a2 b2 hx hy
              exact h (i + 1) a2 b2 (by simpa using hx) (by simpa using hy)

/-- C7: for same-length inputs, `nan_allclose` returns false when the
elementwise NaN masks differ at any position, true when every position of
both inputs is NaN, and otherwise returns true iff every position that is
NaN in neither input satisfies `|x - y| <= atol + rtol * |y|`. -/
theorem nan_allclose_spec (x y : List FVal) (rtol atol : ℚ)
    (hlen : x.length = y.length) :
    (x.map isnan ≠ y.map isnan → nan_allclose x y rtol atol = false) ∧
    ((∀ v ∈ x, isnan v = true) → (∀ v ∈ y, isnan v = true) →
      nan_allclose x y rtol atol = true) ∧
    (x.map isnan = y.map isnan → (∃ v ∈ x, isnan v = false) →
      (nan_allclose x y rtol atol = true ↔
        ∀ (i : ℕ) (a b : ℚ), x[i]? = some (FVal.num a) →
          y[i]? = some (FVal.num b) → |a - b| ≤ atol + rtol * |b|)) := by
  refine ⟨?_, ?_, ?_⟩
  · intro hne
    have hc : ((((x.map isnan).zip (y.map isnan)).any fun p => p.1 != p.2)
        = true) := by
      rcases Bool.eq_false_or_eq_true
        (((x.map isnan).zip (y.map isnan)).any fun p => p.1 != p.2) with h | h
      · exact h
      · exact absurd ((mask_any_eq_false_iff x y hlen).mp h) hne
    simp [nan_allclose, hc]
  · intro hx hy
    have hmx : x.map isnan = List.replicate x.length true := by
      have := List.eq_replicate_of_mem (l := x.map isnan) (a := true) ?_
      · simpa using this
      · intro b hb
        rcases List.mem_map.mp hb with ⟨v, hv, rfl⟩
        exact hx v hv
    have hmy : y.map isnan = List.replicate y.length true := by
      have := List.eq_replicate_of_mem (l := y.map isnan) (a := true) ?_
      · simpa using this
      · intro b hb
        rcases List.mem_map.mp hb with ⟨v, hv, rfl⟩
        exact hy v hv
    have hmask : x.map isnan = y.map isnan := by rw [hmx, hmy, hlen]
    have hc := (mask_any_eq_false_iff x y hlen).mpr hmask
    have hall : ((x.map isnan).all fun b => b) = true := by
      rw [List.all_eq_true]
      intro b hb
      rcases List.mem_map.mp hb with ⟨v, hv, rfl⟩
      simp [hx v hv]
    simp [nan_allclose, hc, hall]
  · intro hmask hex
    have hc := (mask_any_eq_false_iff x y hlen).mpr hmask
    have hnall : ((x.map isnan).all fun b => b) = false := by
      rw [List.all_eq_false]
      obtain ⟨v, hv, hfalse⟩ := hex
      exact ⟨isnan v, List.mem_map_of_mem isnan hv, by simp [hfalse]⟩
    have key : nan_allclose x y rtol atol =
        allclose (x.filter fun v => !(isnan v))
          (y.filter fun v => !(isnan v)) rtol atol := by
      by_cases hany : ((x.map isnan).any fun b => b) = true
      · simp [nan_allclose, hc, hnall, hany]
      · have hanyf : ((x.map isnan).any fun b => b) = false :=
          Bool.eq_false_iff.mpr hany
        have hxid : (x.filter fun v => !(isnan v)) = x := by
          rw [List.filter_eq_self]
          intro v hv
          rw [List.any_eq_false] at hanyf
          have := hanyf (isnan v) (List.mem_map_of_mem isnan hv)
          simp at this
          simp [this]
        have hyid : (y.filter fun v => !(isnan v)) = y := by
          rw [List.filter_eq_self]
          intro v hv
          rw [List.any_eq_false] at hanyf
          have := hanyf (isnan v) (by rw [hmask]; exact List.mem_map_of_mem isnan hv)
          simp at this
          simp [this]
        simp [nan_allclose, hc, hnall, hanyf, hxid, hyid]
    rw [key]
    exact allclose_filter_iff rtol atol x y hmask

/-- Witness for C7 at `x = [1, NaN]`, `y = [1, NaN]` with the default
tolerances `rtol = 1/100000`, `atol = 1/100000000`. -/
theorem nan_allclose_spec_witness :
    nan_allclose [FVal.num 1, FVal.nan] [FVal.num 1, FVal.nan]
      (1 / 100000) (1 / 100000000) = true :=
  ((nan_allclose_spec [FVal.num 1, FVal.nan] [FVal.num 1, FVal.nan]
      (1 / 100000) (1 / 100000000) rfl).2.2 rfl
    ⟨FVal.num 1, by simp, by simp [isnan]⟩).mpr
    (by
      intro i a b hx hy
      cases i with
      | zero =>
        simp only [List.getElem?_cons_zero, Option.some.injEq,
          FVal.num.injEq] at hx hy
        subst hx
        subst hy
        norm_num
      | succ n =>
        cases n with
        | zero => simp at hx
        | succ m => simp at hx)

end Numerics


namespace Numerics

/-- Embedding of the core formula of `erf(z)` from the source: with
`t = 1/(1 + 0.5*|z|)`, the Horner-form Chebyshev approximation
`1 - t * exp(-z*z - 1.26551223 + t * (...))` with the nine documented
coefficients.  The source computes this elementwise on an array. -/
noncomputable def erfAns (z : ℝ) : ℝ :=
  let t : ℝ := 1.0 / (1.0 + 0.5 * |z|)
  1 - t * Real.exp (-z * z - 1.26551223 +
    t * (1.00002368 +
    t * (0.37409196 +
    t * (0.09678418 +
    t * (-0.18628806 +
    t * (0.27886807 +
    t * (-1.13520398 +
    t * (1.48851587 +
    t * (-0.82215223 +
    t * 0.17087277)))))))))

/-- Embedding of `erf(z)` on one scalar: the negative-input mask step
`ans[neg] = -ans[neg]` negates the core result wherever `z < 0`. -/
noncomputable def erf (z : ℝ) : ℝ :=
  if z < 0 then -erfAns z else erfAns z

theorem erfAns_neg (z : ℝ) : erfAns (-z) = erfAns z := by
  simp only [erfAns, abs_neg, neg_neg, mul_neg, neg_mul]

theorem erfAns_zero : erfAns 0 = 1 - Real.exp (3 / 10 ^ 8) := by
  have harg : (-(0:ℝ) * 0 - 1.26551223 +
      1 * (1.00002368 +
      1 * (0.37409196 +
      1 * (0.09678418 +
      1 * (-0.18628806 +
      1 * (0.27886807 +
      1 * (-1.13520398 +
      1 * (1.48851587 +
      1 * (-0.82215223 +
      1 * 0.17087277))))))))) = (3 / 10 ^ 8 : ℝ) := by norm_num
  have ht : ((1.0 : ℝ) / (1.0 + 0.5 * |(0:ℝ)|)) = (1:ℝ) := by norm_num
  rw [erfAns]
  rw [ht, harg]
  norm_num

theorem one_le_exp_c : 1 ≤ Real.exp (3 / 10 ^ 8 : ℝ) := by
  rw [← Real.exp_zero]
  exact Real.exp_le_exp.mpr (by norm_num)

theorem exp_c_le : Real.exp (3 / 10 ^ 8 : ℝ) ≤ 1 + 6 / 10 ^ 8 := by
  have h := Real.add_one_le_exp (-(3 / 10 ^ 8) : ℝ)
  rw [Real.exp_neg] at h
  have hpos := Real.exp_pos (3 / 10 ^ 8 : ℝ)
  have h3 : (1 - 3 / 10 ^ 8 : ℝ) * Real.exp (3 / 10 ^ 8) ≤ 1 := by
    calc (1 - 3 / 10 ^ 8 : ℝ) * Real.exp (3 / 10 ^ 8)
        ≤ (Real.exp (3 / 10 ^ 8))⁻¹ * Real.exp (3 / 10 ^ 8) := by
          apply mul_le_mul_of_nonneg_right _ (le_of_lt hpos)
          linarith
      _ = 1 := inv_mul_cancel₀ (ne_of_gt hpos)
  nlinarith [h3, hpos]

/-- C8: `erf 0` equals 0 and `erf (-z)` equals `-erf z` for every `z`, both
within the documented approximation error bound of about `1.2e-7` (away from
zero the odd symmetry is exact; at zero the defect is the tiny residue
`1 - exp(3e-8)` of the Chebyshev coefficients). -/
theorem erf_zero_and_odd :
    |erf 0 - 0| ≤ 1.2 / 10 ^ 7 ∧
    ∀ z : ℝ, |erf (-z) - (-erf z)| ≤ 1.2 / 10 ^ 7 := by
  have hv : erf 0 = 1 - Real.exp (3 / 10 ^ 8) := by
    rw [erf, if_neg (lt_irrefl 0), erfAns_zero]
  have h1 := one_le_exp_c
  have h2 := exp_c_le
  constructor
  · rw [hv, sub_zero, abs_of_nonpos (by linarith)]
    have hb : (1.2 / 10 ^ 7 : ℝ) = 12 / 10 ^ 8 := by norm_num
    rw [hb]
    linarith
  · intro z
    rcases lt_trichotomy z 0 with h | h | h
    · have e1 : erf (-z) = erfAns z := by
        rw [erf, if_neg (by linarith), erfAns_neg]
      have e2 : erf z = -erfAns z := by
        rw [erf, if_pos h]
      rw [e1, e2, neg_neg, sub_self, abs_zero]
      norm_num
    · subst h
      rw [neg_zero]
      have hsum : erf 0 - -erf 0 = 2 * (1 - Real.exp (3 / 10 ^ 8)) := by
        rw [hv]; ring
      rw [hsum, abs_of_nonpos (by linarith)]
      have hb : (1.2 / 10 ^ 7 : ℝ) = 12 / 10 ^ 8 := by norm_num
      rw [hb]
      linarith
    · have e1 : erf (-z) = -erfAns z := by
        rw [erf, if_pos (by linarith), erfAns_neg]
      have e2 : erf z = erfAns z := by
        rw [erf, if_neg (by linarith)]
      rw [e1, e2, sub_self, abs_zero]
      norm_num
end Numerics

namespace Numerics

/-- Numeric typecodes accepted by `ensure_numeric` (`num.float`,
`num.int`, ...). -/
inductive Dtype where
  | float : Dtype
  | int : Dtype
  deriving DecidableEq, Repr

/-- Conversion of one element to a target typecode, as `numpy.array(A,
dtype=...)` performs it: floats are kept, integer conversion truncates
toward zero. -/
def castTo : Dtype → ℚ → ℚ
  | .float, q => q
  | .int, q => if 0 ≤ q then ((⌊q⌋ : ℤ) : ℚ) else ((⌈q⌉ : ℤ) : ℚ)

/-- Inputs handled by `ensure_numeric`: a string, an existing numeric array,
a (nested) sequence, or a scalar. -/
inductive PyObj where
  | str : String → PyObj
  | ndarray : List ℚ → PyObj
  | seq : List ℚ → PyObj
  | scalar : ℚ → PyObj
  deriving DecidableEq, Repr

/-- Embedding of `ensure_numeric(A, typecode)`: strings raise; with no
typecode an existing `numpy.ndarray` is returned as is and anything else is
converted with `numpy.array(A)`; with a typecode the input is converted with
`numpy.array(A, dtype=typecode, copy=False)`. -/
def ensure_numeric (A : PyObj) (typecode : Option Dtype) : Except String PyObj :=
  match A with
  | .str _ => Except.error ("Sorry, cannot handle strings in ensure_numeric()")
  | .ndarray a =>
    match typecode with
    | none => Except.ok (.ndarray a)
    | some tc => Except.ok (.ndarray (a.map (castTo tc)))
  | .seq l =>
    match typecode with
    | none => Except.ok (.ndarray l)
    | some tc => Except.ok (.ndarray (l.map (castTo tc)))
  | .scalar q =>
    match typecode with
    | none => Except.ok (.ndarray [q])
    | some tc => Except.ok (.ndarray [castTo tc q])

/-- C9: an input that is already a numeric array is returned unchanged
(hence with identical shape and values) when no target type is specified. -/
theorem ensure_numeric_ndarray_id (a : List ℚ) :
    ensure_numeric (PyObj.ndarray a) none = Except.ok (PyObj.ndarray a) := rfl

end Numerics
